import Mathlib

/-!
Shallow embedding of the smartheart durable job-dispatch subsystem:
the job model (internal/job), the in-process queue backend (internal/memq)
and the Redis-stream backend (internal/queue/redis_queue.go).

Modelling conventions:
* `uuid.UUID` is a `Nat`; `uuid.Nil` is `0`.  `uuid.New()` is modelled by a
  caller-supplied `fresh : Nat` (a freshly generated v4 uuid is never nil,
  so theorems take `fresh ≠ 0` where it matters).
* `time.Time` / `time.Duration` are `Nat` ticks; the Go zero time is `0` and
  `time.Now()` is a caller-supplied tick (non-zero for any real wall clock,
  non-decreasing across successive calls in one process).
* Go errors are `Option String`: `none` is a nil error, `some s` an error
  whose `Error()` text is `s`.
* The Redis broker is a state `Broker` of two streams plus the set of
  acknowledged entry ids; broker commands are modelled as succeeding
  (a broker-side failure is logged-and-continue in the source, part of the
  environment, not of the algorithm).
* `encoding/json` is an external collaborator: serialization is an opaque
  `enc : Job → String`, deserialization an opaque `dec : String → Option Job`
  (`json.Marshal` of a `job.Job` cannot fail, so `enc` is total).
-/

namespace SmartHeart

/-- Model of `job.Status` (internal/job). -/
inductive Status where
  | queued
  | running
  | succeeded
  | failed
deriving DecidableEq, Repr

/-- Model of `job.Job` (internal/job).  `Ty` stands for the Go field `Type`
(a Lean keyword); `Payload` is the raw byte slice. -/
structure Job where
  ID : Nat
  Ty : String
  Payload : List Nat
  Status : Status
  Error : String
  Enqueued : Nat
  Started : Option Nat
  Finished : Option Nat
deriving DecidableEq, Repr

/-- Lookup in a Go `map[uuid.UUID]*job.Job`, modelled as an association list. -/
def mapGet (m : List (Nat × Job)) (k : Nat) : Option Job :=
  (m.find? (fun p => p.1 == k)).map (fun p => p.2)

/-- Insert/overwrite in a Go `map[uuid.UUID]*job.Job`. -/
def mapSet (m : List (Nat × Job)) (k : Nat) (v : Job) : List (Nat × Job) :=
  (m.filter (fun p => !(p.1 == k))) ++ [(k, v)]

/-- Model of `memq.memQueue`: bounded buffer (a Go channel of capacity `cap`),
the per-job timeout `maxWait`, and the status cache `jobs`. -/
structure MemQueue where
  buf : List Job
  cap : Nat
  maxWait : Nat
  jobs : List (Nat × Job)
deriving DecidableEq, Repr

/-- Model of `memq.NewMemoryQueue`. -/
def NewMemoryQueue (buffer maxJobDuration : Nat) : MemQueue :=
  { buf := [], cap := buffer, maxWait := maxJobDuration, jobs := [] }

/-- Model of `memq.memQueue.Enqueue`.  The record is mutated first (ID default,
status, enqueued stamp); then a `select` races sending into the buffer
against `ctx.Done()`.  `ctxDone` is whether the caller context is cancelled;
`sel` models the uniform pseudo-random pick of Go select when both cases are
ready (`sel = true` picks the send).  Result `none` models blocking
(buffer full and context not done); otherwise the result is
(queue after, caller record after mutation, returned id, returned error).
A cancelled caller context yields `ctx.Err() = context.Canceled`. -/
def memEnqueue (q : MemQueue) (j : Job) (ctxDone : Bool) (fresh now : Nat)
    (sel : Bool) : Option (MemQueue × Job × Nat × Option String) :=
  let j1 : Job :=
    { j with ID := if j.ID = 0 then fresh else j.ID
             Status := Status.queued
             Enqueued := now }
  if q.buf.length < q.cap ∧ (ctxDone = false ∨ sel = true) then
    some ({ q with buf := q.buf ++ [j1], jobs := mapSet q.jobs j1.ID j1 },
          j1, j1.ID, none)
  else if ctxDone then
    some (q, j1, 0, some ("context canceled"))
  else
    none

/-- Model of `memq.memQueue.Status`: read from the cache under the read lock.
`none` is the `found = false` case. -/
def memStatus (q : MemQueue) (id : Nat) : Option Job :=
  mapGet q.jobs id

/-- The body of one `memq` consumer-loop iteration after a job has been
received from the buffer: stamp running/started, run the handler under the
timeout context, stamp finished, then succeeded/failed from the error the handler
returned.  `tStart`/`tFin` are the two `time.Now()` calls. -/
def memWorkerProcess (j : Job) (handlerErr : Option String)
    (tStart tFin : Nat) : Job :=
  let j1 := { j with Status := Status.running, Started := some tStart }
  let j2 := { j1 with Finished := some tFin }
  match handlerErr with
  | some e => { j2 with Status := Status.failed, Error := e }
  | none => { j2 with Status := Status.succeeded }

/-- One `memq` consumer-loop iteration on the queue state: receive the next
buffered job, process it, and write the final snapshot back into the cache
(in Go the map holds the same pointer that is mutated in place).  `none`
means the buffer is empty (the receive blocks). -/
def memConsumeStep (q : MemQueue) (handlerErr : Option String)
    (tStart tFin : Nat) : Option MemQueue :=
  match q.buf with
  | [] => none
  | j :: rest =>
    let jf := memWorkerProcess j handlerErr tStart tFin
    some { q with buf := rest, jobs := mapSet q.jobs jf.ID jf }

/-- Model of `memq.memQueue.Len`. -/
def memLen (q : MemQueue) : Nat :=
  q.buf.length

/-- Model of `memq.memQueue.Close`: a no-op returning a nil error. -/
def memClose (q : MemQueue) : MemQueue × Option String :=
  (q, none)

/-- A Redis field value as go-redis delivers it (`interface{}` in
`XMessage.Values`): a string, or anything else (a failed
`.(string)` assertion). -/
inductive RValue where
  | str (s : String)
  | other
deriving DecidableEq, Repr

/-- Model of `redis.XMessage`: a stream entry id plus its field/value pairs. -/
structure XMessage where
  ID : String
  Values : List (String × RValue)
deriving DecidableEq, Repr

/-- Lookup `msg.Values[k]`; `none` models a missing key (a nil
`interface{}` in Go). -/
def getValue (vs : List (String × RValue)) (k : String) : Option RValue :=
  (vs.find? (fun p => p.1 == k)).map (fun p => p.2)

/-- The Go pattern `s, ok := msg.Values[k].(string)`: `some s` iff the key
is present with a string value. -/
def getStr (vs : List (String × RValue)) (k : String) : Option String :=
  match getValue vs k with
  | some (RValue.str s) => some s
  | _ => none

/-- The broker-side state the queue manipulates: the main stream, its
dead-letter sibling (`stream + ":deadletter"`), and the ids acknowledged
out of the consumer group (`XACK`). -/
structure Broker where
  main : List XMessage
  dl : List XMessage
  acked : List String
deriving DecidableEq, Repr

/-- Model of `queue.RedisQueue` (process-local part): configuration, the local
status cache `jobs`, and whether the `closing` channel has been closed. -/
structure RedisQueue where
  stream : String
  group : String
  maxWait : Nat
  claimInterval : Nat
  claimTimeout : Nat
  jobs : List (Nat × Job)
  closed : Bool
deriving DecidableEq, Repr

/-- Model of `queue.RedisQueue.ackMessage`: `XACK` on the main stream. -/
def ackMessage (b : Broker) (messageID : String) : Broker :=
  { b with acked := b.acked ++ [messageID] }

/-- Model of `queue.RedisQueue.Enqueue`.  Mutates the record (ID default, status,
enqueued stamp), serializes it with `enc`, and `XADD`s `{id, data}` to the
main stream; on success the record is also written to the local cache.
`ctxDone` set models a caller context that is already cancelled: the
go-redis client then fails the `XADD` with `ctx.Err()`, which `Enqueue`
wraps.  `sid` is the entry id the broker assigns.  Result:
(queue after, broker after, caller record after mutation, returned id,
returned error). -/
def redisEnqueue (enc : Job → String) (q : RedisQueue) (b : Broker) (j : Job)
    (ctxDone : Bool) (fresh now : Nat) (sid : String) :
    RedisQueue × Broker × Job × Nat × Option String :=
  let j1 : Job :=
    { j with ID := if j.ID = 0 then fresh else j.ID
             Status := Status.queued
             Enqueued := now }
  let data := enc j1
  if ctxDone then
    (q, b, j1, 0, some ("failed to add job to stream: context canceled"))
  else
    ({ q with jobs := mapSet q.jobs j1.ID j1 },
     { b with main := b.main ++
        [⟨sid, [("id", RValue.str (toString j1.ID)), ("data", RValue.str data)]⟩] },
     j1, j1.ID, none)

/-- Model of `queue.RedisQueue.Status`: read from the local cache. -/
def redisStatus (q : RedisQueue) (id : Nat) : Option Job :=
  mapGet q.jobs id

/-- Result of `queue.RedisQueue.processMessage`: the queue and broker
after, whether the handler was invoked, and the final snapshot written to
the cache (when one was). -/
structure ProcResult where
  q : RedisQueue
  b : Broker
  handlerRan : Bool
  finalJob : Option Job
deriving DecidableEq, Repr

/-- Model of `queue.RedisQueue.processMessage`.  A missing or non-string `data`
field, or a payload `dec` fails on, is acknowledged and dropped without
touching the cache or running the handler.  Otherwise the decoded job is
stamped running/started and cached, the handler runs under the timeout
context returning `handlerErr`, the terminal snapshot is cached, and the
entry is acknowledged. -/
def processMessage (dec : String → Option Job) (q : RedisQueue) (b : Broker)
    (msg : XMessage) (handlerErr : Option String) (tStart tFin : Nat) :
    ProcResult :=
  match getStr msg.Values ("data") with
  | none => ⟨q, ackMessage b msg.ID, false, none⟩
  | some data =>
    match dec data with
    | none => ⟨q, ackMessage b msg.ID, false, none⟩
    | some j0 =>
      let j1 := { j0 with Status := Status.running, Started := some tStart }
      let qRun := { q with jobs := mapSet q.jobs j1.ID j1 }
      let j2 := { j1 with Finished := some tFin }
      let jf :=
        match handlerErr with
        | some e => { j2 with Status := Status.failed, Error := e }
        | none => { j2 with Status := Status.succeeded }
      ⟨{ qRun with jobs := mapSet qRun.jobs jf.ID jf },
       ackMessage b msg.ID, true, some jf⟩

/-- Model of `queue.RedisQueue.moveToDeadLetter`: `XADD` the record
`{original_id, data, reason, moved_at}` to the dead-letter stream, then ack
the original entry.  A missing `data` key is a nil `interface{}`, which the
go-redis protocol writer sends as the empty string.  `dlId` is the entry id
the broker assigns, `movedAt` the formatted timestamp. -/
def moveToDeadLetter (b : Broker) (msg : XMessage) (reason : String)
    (dlId movedAt : String) : Broker :=
  let dataVal :=
    match getValue msg.Values ("data") with
    | some v => v
    | none => RValue.str ("")
  let entry : XMessage :=
    ⟨dlId, [("original_id", RValue.str msg.ID),
            ("data", dataVal),
            ("reason", RValue.str reason),
            ("moved_at", RValue.str movedAt)]⟩
  ackMessage { b with dl := b.dl ++ [entry] } msg.ID

/-- One element of the `XPENDING` summary `claimStuckJobs` iterates over:
entry id, idle time, and delivery/retry count. -/
structure PendingEntry where
  ID : String
  Idle : Nat
  RetryCount : Nat
deriving DecidableEq, Repr

/-- Model of `queue.RedisQueue.claimStuckJobs` acting on one pending entry: skip it
unless idle at least `claimTimeout`; `XCLAIM` it (`xclaim p.ID = none` is a
claim error, logged and skipped); each claimed message with more than 3
observed retries is dead-lettered, any other is re-dispatched to
`processMessage` in a fresh goroutine (collected in the returned list). -/
def claimEntry (q : RedisQueue) (xclaim : String → Option (List XMessage))
    (dlId movedAt : String) (acc : Broker × List XMessage)
    (p : PendingEntry) : Broker × List XMessage :=
  if p.Idle < q.claimTimeout then acc
  else
    match xclaim p.ID with
    | none => acc
    | some msgs =>
      msgs.foldl
        (fun acc2 msg =>
          if p.RetryCount > 3 then
            (moveToDeadLetter acc2.1 msg
               ("exceeded max retries: " ++ toString p.RetryCount) dlId movedAt,
             acc2.2)
          else
            (acc2.1, acc2.2 ++ [msg]))
        acc

/-- Model of `queue.RedisQueue.claimStuckJobs` over the pending entries returned by
`XPENDING` (at most 100 of them).  Returns the broker after all
dead-lettering/acks together with the messages handed to `processMessage`
for reprocessing. -/
def claimStuckJobs (q : RedisQueue) (b : Broker)
    (xclaim : String → Option (List XMessage)) (dlId movedAt : String)
    (pending : List PendingEntry) : Broker × List XMessage :=
  pending.foldl (claimEntry q xclaim dlId movedAt) (b, [])

/-- Model of `queue.RedisQueue.GetDeadLetterCount`: `XLEN` of the dead-letter
stream. -/
def GetDeadLetterCount (b : Broker) : Nat :=
  b.dl.length

/-- Model of `queue.RedisQueue.RetryDeadLetterJob`.  `XRANGE dl messageID messageID`
is the dead-letter entries with exactly that id; none found is the
`message not found` error, a non-string `data` the `invalid message format`
error (both leave the streams unchanged).  Otherwise the data of the entry is
`XADD`ed back to the main stream under a fresh broker id `sid` (the `id`
field is the `original_id` of the entry; a missing one is sent as the empty
string), and the entry is `XDEL`ed from the dead-letter stream. -/
def RetryDeadLetterJob (b : Broker) (messageID : String) (sid : String) :
    Broker × Option String :=
  match b.dl.filter (fun e => e.ID == messageID) with
  | [] => (b, some ("message not found: " ++ messageID))
  | msg :: _ =>
    match getStr msg.Values ("data") with
    | none => (b, some ("invalid message format"))
    | some data =>
      let origId :=
        match getValue msg.Values ("original_id") with
        | some v => v
        | none => RValue.str ("")
      ({ b with
          main := b.main ++ [⟨sid, [("id", origId), ("data", RValue.str data)]⟩],
          dl := b.dl.filter (fun e => !(e.ID == messageID)) },
       none)

/-- Model of `queue.RedisQueue.Close`: close the `closing` channel (so every
consumer and the claimer observe it and return) and `wg.Wait()` for them;
returns a nil error.  It touches nothing on the broker. -/
def redisClose (q : RedisQueue) : RedisQueue × Option String :=
  ({ q with closed := true }, none)

/-- The top-of-loop `select` of `queue.RedisQueue.consumer`: the loop
returns when the parent context is done or the `closing` channel is
closed. -/
def consumerExitCheck (q : RedisQueue) (ctxDone : Bool) : Bool :=
  ctxDone || q.closed

/-- The `select` of `queue.RedisQueue.claimer`: the loop returns when the
parent context is done or the `closing` channel is closed (otherwise it
waits for the next tick). -/
def claimerExitCheck (q : RedisQueue) (ctxDone : Bool) : Bool :=
  ctxDone || q.closed

/-- Cause with which a Go context is done. -/
inductive CtxErr where
  | canceled
  | deadlineExceeded
deriving DecidableEq, Repr

/-- A Go `context.Context`, reduced to its observable timing: the tick at
which an explicit/parent cancellation fires (if ever) and its effective
deadline (if any). -/
structure GoCtx where
  cancelAt : Option Nat
  deadline : Option Nat
deriving DecidableEq, Repr

/-- The first tick at which the context is done, if any. -/
def GoCtx.doneAt (c : GoCtx) : Option Nat :=
  match c.cancelAt, c.deadline with
  | none, none => none
  | some a, none => some a
  | none, some d => some d
  | some a, some d => some (min a d)

/-- Whether `<-ctx.Done()` has fired by tick `t`. -/
def GoCtx.doneBy (c : GoCtx) (t : Nat) : Bool :=
  match c.doneAt with
  | none => false
  | some d => d ≤ t

/-- Model of `ctx.Err()` observed at tick `t`: `deadlineExceeded` when the deadline
fired no later than the cancellation, `canceled` otherwise, `none` while
the context is live. -/
def GoCtx.errAt (c : GoCtx) (t : Nat) : Option CtxErr :=
  match c.doneAt with
  | none => none
  | some dn =>
    if dn ≤ t then
      match c.deadline, c.cancelAt with
      | some d, some a => if d ≤ a then some CtxErr.deadlineExceeded else some CtxErr.canceled
      | some _, none => some CtxErr.deadlineExceeded
      | none, _ => some CtxErr.canceled
    else none

/-- Model of `context.WithTimeout(parent, d)` taken at tick `now` (the `runCtx` both
backends build around each handler invocation with `d = maxWait`): the
child inherits the cancellation of the parent and carries deadline
`now + d`, capped by the deadline of the parent. -/
def withTimeout (parent : GoCtx) (now d : Nat) : GoCtx :=
  { cancelAt := parent.cancelAt,
    deadline := some (match parent.deadline with
                      | some pd => min pd (now + d)
                      | none => now + d) }

/-! ### Helper lemmas about the cache map -/

theorem find?_filter_ne (m : List (Nat × Job)) (k : Nat) :
    ((m.filter (fun p => !(p.1 == k))).find? (fun p => p.1 == k)) = none := by
  induction m with
  | nil => rfl
  | cons a t ih =>
    by_cases h : a.1 = k
    · simp [List.filter_cons, h, ih]
    · simp [List.filter_cons, List.find?_cons, h, ih]

theorem mapGet_mapSet_self (m : List (Nat × Job)) (k : Nat) (v : Job) :
    mapGet (mapSet m k v) k = some v := by
  unfold mapGet mapSet
  rw [List.find?_append, find?_filter_ne]
  simp

theorem mapGet_mapSet_ne (m : List (Nat × Job)) (k k' : Nat) (v : Job)
    (h : k' ≠ k) : mapGet (mapSet m k v) k' = mapGet m k' := by
  have h' : ¬ (k = k') := fun hx => h hx.symm
  unfold mapGet mapSet
  rw [List.find?_append]
  have hfil : ∀ t : List (Nat × Job),
      (t.filter (fun p => !(p.1 == k))).find? (fun p => p.1 == k') =
        t.find? (fun p => p.1 == k') := by
    intro t
    induction t with
    | nil => rfl
    | cons a t2 ih =>
      by_cases ha : a.1 = k
      · have ha' : ¬ (a.1 = k') := fun hx => h (hx.symm.trans ha)
        simp [List.filter_cons, List.find?_cons, ha, ha', h', ih]
      · by_cases hb : a.1 = k'
        · simp [List.filter_cons, List.find?_cons, ha, hb, h, ih]
        · simp [List.filter_cons, List.find?_cons, ha, hb, ih]
  rw [hfil]
  cases hfind : m.find? (fun p => p.1 == k') with
  | none => simp [List.find?_cons, h']
  | some p => simp

/-! ### C1 -/

/-- C1 (amended): Enqueue never clears a pre-set `Started`/`Finished`, so the
claim holds for job records supplied with both nil — as every freshly built
record is.  For such a record, on either backend, when Enqueue returns
without error, `Status` queried with the returned identifier — before any
worker has dequeued the job — finds it with status `queued`, the `enqueued`
stamp set to the (non-zero) enqueue time, and `started`/`finished` nil. -/
theorem C1_enqueue_then_status
    (j : Job) (q : MemQueue) (ctxDone sel : Bool) (fresh now : Nat)
    (q' : MemQueue) (j' : Job) (id : Nat)
    (enc : Job → String) (rq : RedisQueue) (b : Broker) (rctxDone : Bool)
    (sid : String) (rq' : RedisQueue) (b' : Broker) (rj' : Job) (rid : Nat)
    (hs : j.Started = none) (hf : j.Finished = none) (hnow : 0 < now)
    (hmem : memEnqueue q j ctxDone fresh now sel = some (q', j', id, none))
    (hred : redisEnqueue enc rq b j rctxDone fresh now sid =
      (rq', b', rj', rid, none)) :
    ((memStatus q' id).map Job.Status = some Status.queued ∧
     (memStatus q' id).map Job.Enqueued = some now ∧
     (memStatus q' id).map Job.Started = some none ∧
     (memStatus q' id).map Job.Finished = some none ∧
     0 < now) ∧
    ((redisStatus rq' rid).map Job.Status = some Status.queued ∧
     (redisStatus rq' rid).map Job.Enqueued = some now ∧
     (redisStatus rq' rid).map Job.Started = some none ∧
     (redisStatus rq' rid).map Job.Finished = some none) := by
  constructor
  · simp only [memEnqueue] at hmem
    split at hmem
    · simp only [Option.some.injEq, Prod.mk.injEq] at hmem
      obtain ⟨hq, hj, hid, -⟩ := hmem
      subst hq
      subst hid
      simp [memStatus, mapGet_mapSet_self, hs, hf, hnow]
    · simp at hmem
  · simp only [redisEnqueue] at hred
    split at hred
    · simp at hred
    · simp only [Prod.mk.injEq] at hred
      obtain ⟨hq, hb, hj, hid, -⟩ := hred
      subst hq
      subst hid
      simp [redisStatus, mapGet_mapSet_self, hs, hf, hnow]

/-- Job record with a pre-set `Started`, exhibiting that Enqueue does not
clear it. -/
def c1Job : Job :=
  { ID := 0, Ty := "ekg_analyze", Payload := [], Status := Status.queued,
    Error := "", Enqueued := 0, Started := some 5, Finished := none }

/-- C1 counterexample: this record is enqueued without error, yet `Status`
on the returned identifier reports `started = some 5`, not nil — `Enqueue`
overwrites only `ID`, `Status` and `Enqueued`, never `Started`/`Finished`. -/
theorem C1_counterexample :
    ((memEnqueue (NewMemoryQueue 10 50) c1Job false 1 7 false).map
        (fun r => r.2.2.2)) = some none ∧
    ((memEnqueue (NewMemoryQueue 10 50) c1Job false 1 7 false).bind
        (fun r => memStatus r.1 r.2.2.1)).map Job.Started = some (some 5) := by
  exact ⟨rfl, rfl⟩

/-- Fresh job record used to instantiate C1. -/
def c1wJob : Job :=
  { ID := 0, Ty := "ekg_analyze", Payload := [123], Status := Status.queued,
    Error := "", Enqueued := 0, Started := none, Finished := none }

/-- The record as both Enqueues leave it. -/
def c1wJobAfter : Job :=
  { c1wJob with ID := 1, Status := Status.queued, Enqueued := 7 }

/-- The in-process queue after the instantiated enqueue. -/
def c1wQ : MemQueue :=
  { buf := [c1wJobAfter], cap := 10, maxWait := 50,
    jobs := [(1, c1wJobAfter)] }

/-- An initial Redis-backed queue with the default configuration names. -/
def c1wRQ : RedisQueue :=
  { stream := "smartheart:jobs", group := "workers", maxWait := 30,
    claimInterval := 10, claimTimeout := 60, jobs := [], closed := false }

/-- The empty broker. -/
def emptyBroker : Broker :=
  { main := [], dl := [], acked := [] }

/-- The Redis-backed queue after the instantiated enqueue. -/
def c1wRQ1 : RedisQueue :=
  { c1wRQ with jobs := [(1, c1wJobAfter)] }

/-- The broker after the instantiated enqueue. -/
def c1wB1 : Broker :=
  { emptyBroker with main :=
      [⟨"1-0", [("id", RValue.str ("1")), ("data", RValue.str ("E"))]⟩] }

theorem C1_witness :
    c1wJob.Started = none ∧ c1wJob.Finished = none ∧ 0 < (7 : Nat) ∧
    memEnqueue (NewMemoryQueue 10 50) c1wJob false 1 7 false =
      some (c1wQ, c1wJobAfter, 1, none) ∧
    redisEnqueue (fun _ => "E") c1wRQ emptyBroker c1wJob false 1 7 "1-0" =
      (c1wRQ1, c1wB1, c1wJobAfter, 1, none) ∧
    (((memStatus c1wQ 1).map Job.Status = some Status.queued ∧
      (memStatus c1wQ 1).map Job.Enqueued = some 7 ∧
      (memStatus c1wQ 1).map Job.Started = some none ∧
      (memStatus c1wQ 1).map Job.Finished = some none ∧
      0 < 7) ∧
     ((redisStatus c1wRQ1 1).map Job.Status = some Status.queued ∧
      (redisStatus c1wRQ1 1).map Job.Enqueued = some 7 ∧
      (redisStatus c1wRQ1 1).map Job.Started = some none ∧
      (redisStatus c1wRQ1 1).map Job.Finished = some none)) :=
  ⟨rfl, rfl, by decide, by decide, by decide,
   C1_enqueue_then_status c1wJob (NewMemoryQueue 10 50) false false 1 7
     c1wQ c1wJobAfter 1 (fun _ => "E") c1wRQ emptyBroker false "1-0"
     c1wRQ1 c1wB1 c1wJobAfter 1 rfl rfl (by decide) (by decide) (by decide)⟩

/-! ### C2 -/

/-- C2: on either backend, a dequeued job whose handler invocation returns
nil gets a final snapshot in the status cache with status `succeeded`,
`started` and `finished` both set — to the two `time.Now()` stamps taken
around the handler — and `started ≤ finished` (successive `time.Now()`
ticks in one process are non-decreasing, hypothesis `hmono`). -/
theorem C2_handler_nil_succeeds
    (q : MemQueue) (j : Job) (rest : List Job) (tStart tFin : Nat)
    (dec : String → Option Job) (rq : RedisQueue) (b : Broker)
    (msg : XMessage) (data : String) (j0 : Job)
    (hbuf : q.buf = j :: rest) (hmono : tStart ≤ tFin)
    (hdata : getStr msg.Values ("data") = some data)
    (hdec : dec data = some j0) :
    (∃ q', memConsumeStep q none tStart tFin = some q' ∧
      (memStatus q' j.ID).map Job.Status = some Status.succeeded ∧
      (memStatus q' j.ID).map Job.Started = some (some tStart) ∧
      (memStatus q' j.ID).map Job.Finished = some (some tFin)) ∧
    ((processMessage dec rq b msg none tStart tFin).finalJob.map Job.Status =
        some Status.succeeded ∧
     (processMessage dec rq b msg none tStart tFin).finalJob.map Job.Started =
        some (some tStart) ∧
     (processMessage dec rq b msg none tStart tFin).finalJob.map Job.Finished =
        some (some tFin) ∧
     (redisStatus (processMessage dec rq b msg none tStart tFin).q j0.ID).map
        Job.Status = some Status.succeeded ∧
     (redisStatus (processMessage dec rq b msg none tStart tFin).q j0.ID).map
        Job.Started = some (some tStart) ∧
     (redisStatus (processMessage dec rq b msg none tStart tFin).q j0.ID).map
        Job.Finished = some (some tFin)) ∧
    tStart ≤ tFin := by
  refine ⟨?_, ?_, hmono⟩
  · have hstep : memConsumeStep q none tStart tFin =
        some { q with buf := rest, jobs := mapSet q.jobs (memWorkerProcess j none tStart tFin).ID (memWorkerProcess j none tStart tFin) } := by
      simp only [memConsumeStep, hbuf]
    refine ⟨_, hstep, ?_, ?_, ?_⟩ <;>
      simp [memStatus, memWorkerProcess, mapGet_mapSet_self]
  · simp only [processMessage, hdata, hdec]
    refine ⟨rfl, rfl, rfl, ?_, ?_, ?_⟩ <;>
      simp [redisStatus, mapGet_mapSet_self]

/-- Queued job used to instantiate C2 and C3. -/
def c2wJob : Job :=
  { ID := 1, Ty := "ekg_analyze", Payload := [123], Status := Status.queued,
    Error := "", Enqueued := 7, Started := none, Finished := none }

/-- In-process queue holding `c2wJob`, as after its enqueue. -/
def c2wQ : MemQueue :=
  { buf := [c2wJob], cap := 10, maxWait := 50, jobs := [(1, c2wJob)] }

/-- A well-formed stream entry carrying a payload that decodes to
`c2wJob`. -/
def c2wMsg : XMessage :=
  ⟨"1-0", [("id", RValue.str ("1")), ("data", RValue.str ("E"))]⟩

theorem C2_witness :
    c2wQ.buf = c2wJob :: [] ∧ (8 : Nat) ≤ 9 ∧
    getStr c2wMsg.Values ("data") = some ("E") ∧
    (fun _ : String => some c2wJob) "E" = some c2wJob ∧
    ((∃ q', memConsumeStep c2wQ none 8 9 = some q' ∧
      (memStatus q' c2wJob.ID).map Job.Status = some Status.succeeded ∧
      (memStatus q' c2wJob.ID).map Job.Started = some (some 8) ∧
      (memStatus q' c2wJob.ID).map Job.Finished = some (some 9)) ∧
    ((processMessage (fun _ => some c2wJob) c1wRQ emptyBroker c2wMsg none
        8 9).finalJob.map Job.Status = some Status.succeeded ∧
     (processMessage (fun _ => some c2wJob) c1wRQ emptyBroker c2wMsg none
        8 9).finalJob.map Job.Started = some (some 8) ∧
     (processMessage (fun _ => some c2wJob) c1wRQ emptyBroker c2wMsg none
        8 9).finalJob.map Job.Finished = some (some 9) ∧
     (redisStatus (processMessage (fun _ => some c2wJob) c1wRQ emptyBroker
        c2wMsg none 8 9).q c2wJob.ID).map Job.Status =
          some Status.succeeded ∧
     (redisStatus (processMessage (fun _ => some c2wJob) c1wRQ emptyBroker
        c2wMsg none 8 9).q c2wJob.ID).map Job.Started = some (some 8) ∧
     (redisStatus (processMessage (fun _ => some c2wJob) c1wRQ emptyBroker
        c2wMsg none 8 9).q c2wJob.ID).map Job.Finished = some (some 9)) ∧
    (8 : Nat) ≤ 9) :=
  ⟨rfl, by decide, rfl, rfl,
   C2_handler_nil_succeeds c2wQ c2wJob [] 8 9 (fun _ => some c2wJob)
     c1wRQ emptyBroker c2wMsg "E" c2wJob rfl (by decide) rfl rfl⟩

/-! ### C3 -/

/-- C3 (amended): a dequeued job whose handler returns a non-nil error gets
final status `failed` with `error` set to exactly the text of the handler error —
hence non-empty whenever that text is non-empty.  (An error value whose
`Error()` text is empty yields an empty `error` field, see the
counterexample.)  Holds on both backends. -/
theorem C3_handler_error_fails
    (q : MemQueue) (j : Job) (rest : List Job) (e : String) (tStart tFin : Nat)
    (dec : String → Option Job) (rq : RedisQueue) (b : Broker)
    (msg : XMessage) (data : String) (j0 : Job)
    (hbuf : q.buf = j :: rest)
    (hdata : getStr msg.Values ("data") = some data)
    (hdec : dec data = some j0) :
    (∃ q', memConsumeStep q (some e) tStart tFin = some q' ∧
      (memStatus q' j.ID).map Job.Status = some Status.failed ∧
      (memStatus q' j.ID).map Job.Error = some e) ∧
    ((processMessage dec rq b msg (some e) tStart tFin).finalJob.map
        Job.Status = some Status.failed ∧
     (processMessage dec rq b msg (some e) tStart tFin).finalJob.map
        Job.Error = some e ∧
     (redisStatus (processMessage dec rq b msg (some e) tStart tFin).q
        j0.ID).map Job.Status = some Status.failed ∧
     (redisStatus (processMessage dec rq b msg (some e) tStart tFin).q
        j0.ID).map Job.Error = some e) := by
  constructor
  · have hstep : memConsumeStep q (some e) tStart tFin =
        some { q with buf := rest, jobs := mapSet q.jobs (memWorkerProcess j (some e) tStart tFin).ID (memWorkerProcess j (some e) tStart tFin) } := by
      simp only [memConsumeStep, hbuf]
    refine ⟨_, hstep, ?_, ?_⟩ <;>
      simp [memStatus, memWorkerProcess, mapGet_mapSet_self]
  · simp only [processMessage, hdata, hdec]
    refine ⟨rfl, rfl, ?_, ?_⟩ <;>
      simp [redisStatus, mapGet_mapSet_self]

/-- C3 counterexample: a handler error whose `Error()` text is empty (Go
permits `errors.New("")`) is recorded as status `failed` with an **empty**
`error` string, on both backends — refuting "non-empty `error` for every
error value the handler can return". -/
theorem C3_counterexample :
    ((memConsumeStep c2wQ (some ("")) 8 9).bind
        (fun q' => memStatus q' 1)).map Job.Status = some Status.failed ∧
    ((memConsumeStep c2wQ (some ("")) 8 9).bind
        (fun q' => memStatus q' 1)).map Job.Error = some ("") ∧
    (processMessage (fun _ => some c2wJob) c1wRQ emptyBroker c2wMsg
        (some ("")) 8 9).finalJob.map Job.Status = some Status.failed ∧
    (processMessage (fun _ => some c2wJob) c1wRQ emptyBroker c2wMsg
        (some ("")) 8 9).finalJob.map Job.Error = some ("") := by
  exact ⟨rfl, rfl, rfl, rfl⟩

theorem C3_witness :
    c2wQ.buf = c2wJob :: [] ∧
    getStr c2wMsg.Values ("data") = some ("E") ∧
    (fun _ : String => some c2wJob) "E" = some c2wJob ∧
    ((∃ q', memConsumeStep c2wQ (some ("boom")) 8 9 = some q' ∧
      (memStatus q' c2wJob.ID).map Job.Status = some Status.failed ∧
      (memStatus q' c2wJob.ID).map Job.Error = some ("boom")) ∧
    ((processMessage (fun _ => some c2wJob) c1wRQ emptyBroker c2wMsg
        (some ("boom")) 8 9).finalJob.map Job.Status = some Status.failed ∧
     (processMessage (fun _ => some c2wJob) c1wRQ emptyBroker c2wMsg
        (some ("boom")) 8 9).finalJob.map Job.Error = some ("boom") ∧
     (redisStatus (processMessage (fun _ => some c2wJob) c1wRQ emptyBroker
        c2wMsg (some ("boom")) 8 9).q c2wJob.ID).map Job.Status =
          some Status.failed ∧
     (redisStatus (processMessage (fun _ => some c2wJob) c1wRQ emptyBroker
        c2wMsg (some ("boom")) 8 9).q c2wJob.ID).map Job.Error =
          some ("boom"))) :=
  ⟨rfl, rfl, rfl,
   C3_handler_error_fails c2wQ c2wJob [] "boom" 8 9 (fun _ => some c2wJob)
     c1wRQ emptyBroker c2wMsg "E" c2wJob rfl rfl rfl⟩

/-! ### C4 -/

/-- C4: in the claimer, for a pending entry idle longer than the configured
idle threshold whose `XCLAIM` yields its message: if the observed retry
count exceeds 3 the message is appended to the dead-letter stream with a
non-empty reason string and acknowledged out of the main stream, and is not
re-dispatched to the handler; if the retry count is 3 or less the message
is re-dispatched to the handler as a fresh message and nothing is
dead-lettered or acknowledged by the claimer. -/
theorem C4_claimer_policy
    (q : RedisQueue) (b : Broker) (p : PendingEntry) (msg : XMessage)
    (xclaim : String → Option (List XMessage)) (dlId movedAt : String)
    (hidle : q.claimTimeout < p.Idle)
    (hclaim : xclaim p.ID = some [msg]) :
    (3 < p.RetryCount →
      (claimStuckJobs q b xclaim dlId movedAt [p]).1 =
        moveToDeadLetter b msg
          ("exceeded max retries: " ++ toString p.RetryCount) dlId movedAt ∧
      (claimStuckJobs q b xclaim dlId movedAt [p]).1.dl.length =
        b.dl.length + 1 ∧
      (claimStuckJobs q b xclaim dlId movedAt [p]).1.acked =
        b.acked ++ [msg.ID] ∧
      (claimStuckJobs q b xclaim dlId movedAt [p]).2 = [] ∧
      ("exceeded max retries: " ++ toString p.RetryCount) ≠ "") ∧
    (p.RetryCount ≤ 3 →
      (claimStuckJobs q b xclaim dlId movedAt [p]).2 = [msg] ∧
      (claimStuckJobs q b xclaim dlId movedAt [p]).1 = b) := by
  have hnotlt : ¬ p.Idle < q.claimTimeout := by omega
  constructor
  · intro hretry
    have hle : ¬ p.RetryCount ≤ 3 := by omega
    refine ⟨?_, ?_, ?_, ?_, ?_⟩
    · simp [claimStuckJobs, claimEntry, hnotlt, hclaim, hretry]
    · simp [claimStuckJobs, claimEntry, hnotlt, hclaim, hretry,
        moveToDeadLetter, ackMessage]
    · simp [claimStuckJobs, claimEntry, hnotlt, hclaim, hretry,
        moveToDeadLetter, ackMessage]
    · simp [claimStuckJobs, claimEntry, hnotlt, hclaim, hretry]
    · intro hcontra
      have hlen := congrArg String.length hcontra
      rw [String.length_append] at hlen
      have h22 : ("exceeded max retries: ").length = 22 := by decide
      have h0 : ("").length = 0 := by decide
      omega
  · intro hretry
    have hgt : ¬ 3 < p.RetryCount := by omega
    constructor
    · simp [claimStuckJobs, claimEntry, hnotlt, hclaim, hgt]
    · simp [claimStuckJobs, claimEntry, hnotlt, hclaim, hgt]

/-- Pending entry used to instantiate C4: idle 100 ticks against a
60-tick threshold, observed retry count 5. -/
def c4wPending : PendingEntry :=
  { ID := "1-0", Idle := 100, RetryCount := 5 }

theorem C4_witness :
    c1wRQ.claimTimeout < c4wPending.Idle ∧
    (fun i : String => if i == "1-0" then some [c2wMsg] else none)
        c4wPending.ID = some [c2wMsg] ∧
    ((3 < c4wPending.RetryCount →
      (claimStuckJobs c1wRQ emptyBroker
          (fun i => if i == "1-0" then some [c2wMsg] else none)
          "dl-1" "2026-01-01" [c4wPending]).1 =
        moveToDeadLetter emptyBroker c2wMsg
          ("exceeded max retries: " ++ toString c4wPending.RetryCount)
          "dl-1" "2026-01-01" ∧
      (claimStuckJobs c1wRQ emptyBroker
          (fun i => if i == "1-0" then some [c2wMsg] else none)
          "dl-1" "2026-01-01" [c4wPending]).1.dl.length =
        emptyBroker.dl.length + 1 ∧
      (claimStuckJobs c1wRQ emptyBroker
          (fun i => if i == "1-0" then some [c2wMsg] else none)
          "dl-1" "2026-01-01" [c4wPending]).1.acked =
        emptyBroker.acked ++ [c2wMsg.ID] ∧
      (claimStuckJobs c1wRQ emptyBroker
          (fun i => if i == "1-0" then some [c2wMsg] else none)
          "dl-1" "2026-01-01" [c4wPending]).2 = [] ∧
      ("exceeded max retries: " ++ toString c4wPending.RetryCount) ≠ "") ∧
    (c4wPending.RetryCount ≤ 3 →
      (claimStuckJobs c1wRQ emptyBroker
          (fun i => if i == "1-0" then some [c2wMsg] else none)
          "dl-1" "2026-01-01" [c4wPending]).2 = [c2wMsg] ∧
      (claimStuckJobs c1wRQ emptyBroker
          (fun i => if i == "1-0" then some [c2wMsg] else none)
          "dl-1" "2026-01-01" [c4wPending]).1 = emptyBroker)) :=
  ⟨by decide, rfl,
   C4_claimer_policy c1wRQ emptyBroker c4wPending c2wMsg
     (fun i => if i == "1-0" then some [c2wMsg] else none)
     "dl-1" "2026-01-01" (by decide) rfl⟩

/-! ### C5 -/

/-- C5 (amended): on the stream backend a cancelled caller context makes
Enqueue return the wrapped cancellation error with the nil identifier,
leaving cache and stream untouched (so a fresh job remains unknown to
`Status`).  On the in-process backend the same holds whenever the `select`
takes the cancellation branch — which is guaranteed when the buffer is full
(`hsel` left) — but when buffer space is free the Go `select` may instead
pick the send and accept the job, see the counterexample. -/
theorem C5_cancelled_enqueue
    (q : MemQueue) (j : Job) (fresh now : Nat) (sel : Bool)
    (enc : Job → String) (rq : RedisQueue) (b : Broker) (sid : String)
    (hsel : ¬ q.buf.length < q.cap ∨ sel = false) :
    memEnqueue q j true fresh now sel =
      some (q, { j with ID := if j.ID = 0 then fresh else j.ID, Status := Status.queued, Enqueued := now }, 0, some ("context canceled")) ∧
    redisEnqueue enc rq b j true fresh now sid =
      (rq, b, { j with ID := if j.ID = 0 then fresh else j.ID, Status := Status.queued, Enqueued := now }, 0, some ("failed to add job to stream: context canceled")) := by
  constructor
  · have hcond : ¬ (q.buf.length < q.cap ∧ (true = false ∨ sel = true)) := by
      rcases hsel with h | h
      · exact fun hc => h hc.1
      · rintro ⟨-, hor⟩
        rcases hor with h2 | h2
        · exact Bool.noConfusion h2
        · rw [h] at h2
          exact Bool.noConfusion h2
    simp [memEnqueue, hcond]
    intro hlt
    rcases hsel with h | h
    · exact absurd hlt h
    · exact h
  · simp [redisEnqueue]

/-- C5 counterexample: with the caller context already cancelled and buffer
space free, the `select` may pick the send case (`sel = true`): Enqueue
returns the new identifier with a nil error and the job is in the buffer
and the status cache — it was submitted despite the cancelled context. -/
theorem C5_counterexample :
    memEnqueue (NewMemoryQueue 10 50) c1wJob true 1 7 true =
      some (c1wQ, c1wJobAfter, 1, none) ∧
    memStatus c1wQ 1 = some c1wJobAfter ∧
    c1wQ.buf = [c1wJobAfter] := by
  exact ⟨by decide, by decide, rfl⟩

theorem C5_witness :
    (¬ (NewMemoryQueue 0 50).buf.length < (NewMemoryQueue 0 50).cap ∨
      (true : Bool) = false) ∧
    (memEnqueue (NewMemoryQueue 0 50) c1wJob true 1 7 true =
      some (NewMemoryQueue 0 50, { c1wJob with ID := if c1wJob.ID = 0 then 1 else c1wJob.ID, Status := Status.queued, Enqueued := 7 }, 0, some ("context canceled")) ∧
    redisEnqueue (fun _ => "E") c1wRQ emptyBroker c1wJob true 1 7 "1-0" =
      (c1wRQ, emptyBroker, { c1wJob with ID := if c1wJob.ID = 0 then 1 else c1wJob.ID, Status := Status.queued, Enqueued := 7 }, 0, some ("failed to add job to stream: context canceled"))) :=
  ⟨Or.inl (by decide),
   C5_cancelled_enqueue (NewMemoryQueue 0 50) c1wJob 1 7 true
     (fun _ => "E") c1wRQ emptyBroker "1-0" (Or.inl (by decide))⟩

/-! ### C6 -/

/-- C6: a stream entry whose `data` field is missing, not a string, or
fails to deserialize is acknowledged and dropped: the handler is not
invoked, nothing is written to the status cache, and the broker change is
exactly the acknowledgment of the entry. -/
theorem C6_poison_dropped
    (dec : String → Option Job) (q : RedisQueue) (b : Broker)
    (msg : XMessage) (handlerErr : Option String) (tStart tFin : Nat)
    (hbad : getStr msg.Values ("data") = none ∨
      ∃ d, getStr msg.Values ("data") = some d ∧ dec d = none) :
    processMessage dec q b msg handlerErr tStart tFin =
      ⟨q, ackMessage b msg.ID, false, none⟩ ∧
    (processMessage dec q b msg handlerErr tStart tFin).q.jobs = q.jobs ∧
    (processMessage dec q b msg handlerErr tStart tFin).b.acked =
      b.acked ++ [msg.ID] ∧
    (processMessage dec q b msg handlerErr tStart tFin).handlerRan = false := by
  rcases hbad with h | ⟨d, hd, hdec⟩
  · refine ⟨?_, ?_, ?_, ?_⟩ <;> simp [processMessage, h, ackMessage]
  · refine ⟨?_, ?_, ?_, ?_⟩ <;> simp [processMessage, hd, hdec, ackMessage]

/-- A malformed stream entry: its `data` field is not a string. -/
def c6wMsg : XMessage :=
  ⟨"2-0", [("id", RValue.str ("1")), ("data", RValue.other)]⟩

theorem C6_witness :
    (getStr c6wMsg.Values ("data") = none ∨
      ∃ d, getStr c6wMsg.Values ("data") = some d ∧
        (fun _ : String => (none : Option Job)) d = none) ∧
    (processMessage (fun _ => none) c1wRQ emptyBroker c6wMsg none 8 9 =
      ⟨c1wRQ, ackMessage emptyBroker c6wMsg.ID, false, none⟩ ∧
    (processMessage (fun _ => none) c1wRQ emptyBroker c6wMsg none 8 9).q.jobs =
      c1wRQ.jobs ∧
    (processMessage (fun _ => none) c1wRQ emptyBroker c6wMsg none 8 9).b.acked =
      emptyBroker.acked ++ [c6wMsg.ID] ∧
    (processMessage (fun _ => none) c1wRQ emptyBroker c6wMsg none 8
      9).handlerRan = false) :=
  ⟨Or.inl rfl,
   C6_poison_dropped (fun _ => none) c1wRQ emptyBroker c6wMsg none 8 9
     (Or.inl rfl)⟩

/-! ### C7 -/

/-- C7: each handler runs under `context.WithTimeout(ctx, maxWait)` taken
at `tStart`.  Provided the parent shutdown context does not fire first
(`hca`/`hpd`), at every tick `t` from `tStart + maxWait` on, the context
passed to the handler is done with error deadline-exceeded; and when the
handler then returns its cancellation error (any non-nil error `e`), the
job's final status is `failed` — on both backends. -/
theorem C7_timeout_cancels
    (parent : GoCtx) (maxWait tStart t tFin : Nat)
    (q : MemQueue) (j : Job) (rest : List Job) (e : String)
    (dec : String → Option Job) (rq : RedisQueue) (b : Broker)
    (msg : XMessage) (data : String) (j0 : Job)
    (hca : ∀ a, parent.cancelAt = some a → tStart + maxWait < a)
    (hpd : ∀ d, parent.deadline = some d → tStart + maxWait ≤ d)
    (ht : tStart + maxWait ≤ t)
    (hbuf : q.buf = j :: rest)
    (hdata : getStr msg.Values ("data") = some data)
    (hdec : dec data = some j0) :
    (withTimeout parent tStart maxWait).doneBy t = true ∧
    (withTimeout parent tStart maxWait).errAt t =
      some CtxErr.deadlineExceeded ∧
    (∃ q', memConsumeStep q (some e) tStart tFin = some q' ∧
      (memStatus q' j.ID).map Job.Status = some Status.failed) ∧
    (processMessage dec rq b msg (some e) tStart tFin).finalJob.map
      Job.Status = some Status.failed := by
  have hD : (withTimeout parent tStart maxWait).deadline =
      some (tStart + maxWait) := by
    simp only [withTimeout]
    cases hd : parent.deadline with
    | none => rfl
    | some d =>
      have hle := hpd d hd
      simp [Nat.min_eq_right hle]
  have hdone : (withTimeout parent tStart maxWait).doneAt =
      some (tStart + maxWait) := by
    unfold GoCtx.doneAt
    rw [hD]
    cases hc : parent.cancelAt with
    | none => simp [withTimeout, hc]
    | some a =>
      have hlt := hca a hc
      simp [withTimeout, hc, Nat.min_eq_right (Nat.le_of_lt hlt)]
  refine ⟨?_, ?_, ?_, ?_⟩
  · simp [GoCtx.doneBy, hdone, ht]
  · unfold GoCtx.errAt
    rw [hdone, hD]
    cases hc : parent.cancelAt with
    | none => simp [withTimeout, hc, ht]
    | some a =>
      have hlt := hca a hc
      simp [withTimeout, hc, ht, Nat.le_of_lt hlt]
  · have hstep : memConsumeStep q (some e) tStart tFin =
        some { q with buf := rest, jobs := mapSet q.jobs (memWorkerProcess j (some e) tStart tFin).ID (memWorkerProcess j (some e) tStart tFin) } := by
      simp only [memConsumeStep, hbuf]
    refine ⟨_, hstep, ?_⟩
    simp [memStatus, memWorkerProcess, mapGet_mapSet_self]
  · simp [processMessage, hdata, hdec]

/-- A parent shutdown context that never fires, as built by
`context.WithCancel(context.Background())` while the process runs. -/
def liveParent : GoCtx :=
  { cancelAt := none, deadline := none }

theorem C7_witness :
    (∀ a, liveParent.cancelAt = some a → 8 + 20 < a) ∧
    (∀ d, liveParent.deadline = some d → 8 + 20 ≤ d) ∧
    8 + 20 ≤ (30 : Nat) ∧
    c2wQ.buf = c2wJob :: [] ∧
    getStr c2wMsg.Values ("data") = some ("E") ∧
    (fun _ : String => some c2wJob) "E" = some c2wJob ∧
    ((withTimeout liveParent 8 20).doneBy 30 = true ∧
    (withTimeout liveParent 8 20).errAt 30 = some CtxErr.deadlineExceeded ∧
    (∃ q', memConsumeStep c2wQ (some ("job timeout/canceled")) 8 9 =
        some q' ∧
      (memStatus q' c2wJob.ID).map Job.Status = some Status.failed) ∧
    (processMessage (fun _ => some c2wJob) c1wRQ emptyBroker c2wMsg
      (some ("job timeout/canceled")) 8 9).finalJob.map Job.Status =
        some Status.failed) :=
  ⟨fun a ha => Option.noConfusion ha, fun d hd => Option.noConfusion hd,
   by decide, rfl, rfl, rfl,
   C7_timeout_cancels liveParent 20 8 30 9 c2wQ c2wJob [] "job timeout/canceled"
     (fun _ => some c2wJob) c1wRQ emptyBroker c2wMsg "E" c2wJob
     (fun a ha => Option.noConfusion ha) (fun d hd => Option.noConfusion hd)
     (by decide) rfl rfl rfl⟩

/-! ### C8 -/

/-- C8 (amended): `Close` on the stream backend closes the `closing`
channel and joins the loops: afterwards the `select` of every consumer
and of the claimer takes the exit branch, the call returns a nil error, and neither
the local cache nor anything on the broker is touched (jobs already
appended to the stream stay there — `redisClose` does not act on the
broker at all).  The in-process `Close` is a no-op returning nil.  Neither
backend stops accepting new work: Enqueue after Close still submits
(see the counterexample). -/
theorem C8_close_semantics (q : RedisQueue) (mq : MemQueue) :
    (redisClose q).1.closed = true ∧
    (redisClose q).2 = none ∧
    consumerExitCheck (redisClose q).1 false = true ∧
    consumerExitCheck (redisClose q).1 true = true ∧
    claimerExitCheck (redisClose q).1 false = true ∧
    (redisClose q).1.jobs = q.jobs ∧
    (redisClose q).1.stream = q.stream ∧
    memClose mq = (mq, none) := by
  refine ⟨rfl, rfl, ?_, ?_, ?_, rfl, rfl, rfl⟩ <;>
    simp [redisClose, consumerExitCheck, claimerExitCheck]

/-- The Redis-backed queue of the C8 counterexample after close and
enqueue. -/
def c8RQ1 : RedisQueue :=
  { c1wRQ1 with closed := true }

/-- C8 counterexample: after `Close()` returns, both backends still accept
new work — a subsequent Enqueue submits the job (nil error, job in
buffer/stream and in the status cache), refuting "accepts no new work".
The in-process backend additionally has no loop signalling or join at all:
its `Close` is the identity. -/
theorem C8_counterexample :
    memClose (NewMemoryQueue 10 50) = (NewMemoryQueue 10 50, none) ∧
    memEnqueue (memClose (NewMemoryQueue 10 50)).1 c1wJob false 1 7 false =
      some (c1wQ, c1wJobAfter, 1, none) ∧
    memStatus c1wQ 1 = some c1wJobAfter ∧
    redisEnqueue (fun _ => "E") (redisClose c1wRQ).1 emptyBroker c1wJob
      false 1 7 "1-0" = (c8RQ1, c1wB1, c1wJobAfter, 1, none) ∧
    redisStatus c8RQ1 1 = some c1wJobAfter := by
  exact ⟨rfl, by decide, by decide, by decide, by decide⟩

/-! ### C9 -/

/-- Entries appended to the dead-letter stream by `moveToDeadLetter` always
carry a string `data` value (a missing `data` on a claimed message is written
as the empty string by the go-redis protocol writer), so the
well-formedness hypothesis of C9 is an invariant of the system.  `hmsg`
says the values of the claimed message are as the broker delivers them: plain
strings. -/
theorem moveToDeadLetter_data_str (b : Broker) (msg : XMessage)
    (r dlId movedAt : String)
    (hinv : ∀ e ∈ b.dl, (getStr e.Values ("data")).isSome = true)
    (hmsg : ∀ v, getValue msg.Values ("data") = some v →
      ∃ s, v = RValue.str s) :
    ∀ e ∈ (moveToDeadLetter b msg r dlId movedAt).dl,
      (getStr e.Values ("data")).isSome = true := by
  intro e he
  simp only [moveToDeadLetter, ackMessage, List.mem_append,
    List.mem_singleton] at he
  rcases he with he | he
  · exact hinv e he
  · subst he
    cases hv : getValue msg.Values ("data") with
    | none => simp [getStr, getValue, hv]
    | some v =>
      obtain ⟨s, hs⟩ := hmsg v hv
      subst hs
      simp [getStr, getValue, hv]

/-- C9: given a dead-letter stream whose entries all carry a string `data`
field (the invariant `moveToDeadLetter` maintains), the manual requeue
operation with an entry identifier: if the identifier is present, the
data of the entry is re-appended to the main stream and the entry is then
removed from the dead-letter stream, with no error returned; if it is not
present, a non-empty error is returned and neither stream is changed. -/
theorem C9_retry_dead_letter (b : Broker) (messageID sid : String)
    (hinv : ∀ e ∈ b.dl, (getStr e.Values ("data")).isSome = true) :
    (∀ msg l, b.dl.filter (fun e => e.ID == messageID) = msg :: l →
      ∃ d, getStr msg.Values ("data") = some d ∧
        RetryDeadLetterJob b messageID sid =
          ({ b with main := b.main ++ [⟨sid, [("id", match getValue msg.Values ("original_id") with | some v => v | none => RValue.str ("")), ("data", RValue.str d)]⟩], dl := b.dl.filter (fun e => !(e.ID == messageID)) }, none)) ∧
    (b.dl.filter (fun e => e.ID == messageID) = [] →
      RetryDeadLetterJob b messageID sid =
        (b, some ("message not found: " ++ messageID)) ∧
      ("message not found: " ++ messageID) ≠ "") := by
  constructor
  · intro msg l hfil
    have hmem : msg ∈ b.dl := by
      have : msg ∈ b.dl.filter (fun e => e.ID == messageID) := by
        rw [hfil]
        exact List.mem_cons_self msg l
      exact (List.mem_filter.mp this).1
    have hsome := hinv msg hmem
    cases hd : getStr msg.Values ("data") with
    | none => rw [hd] at hsome; exact Bool.noConfusion hsome
    | some d =>
      refine ⟨d, rfl, ?_⟩
      simp only [RetryDeadLetterJob, hfil, hd]
  · intro hfil
    constructor
    · simp only [RetryDeadLetterJob, hfil]
    · intro hcontra
      have hlen := congrArg String.length hcontra
      rw [String.length_append] at hlen
      have h18 : ("message not found: ").length = 19 := by decide
      have h0 : ("").length = 0 := by decide
      omega

/-- A dead-letter entry as `moveToDeadLetter` writes it. -/
def c9wEntry : XMessage :=
  ⟨"5-0", [("original_id", RValue.str ("1-0")),
           ("data", RValue.str ("E")),
           ("reason", RValue.str ("exceeded max retries: 5")),
           ("moved_at", RValue.str ("2026-01-01"))]⟩

/-- A broker whose dead-letter stream holds exactly `c9wEntry`. -/
def c9wBroker : Broker :=
  { main := [], dl := [c9wEntry], acked := ["1-0"] }

/-- The broker-assigned id of the re-appended main-stream entry. -/
def sid9 : String := "9-0"

theorem C9_witness :
    (∀ e ∈ c9wBroker.dl, (getStr e.Values ("data")).isSome = true) ∧
    ((∀ msg l, c9wBroker.dl.filter (fun e => e.ID == "5-0") = msg :: l →
      ∃ d, getStr msg.Values ("data") = some d ∧
        RetryDeadLetterJob c9wBroker "5-0" sid9 =
          ({ c9wBroker with main := c9wBroker.main ++ [⟨sid9, [("id", match getValue msg.Values ("original_id") with | some v => v | none => RValue.str ("")), ("data", RValue.str d)]⟩], dl := c9wBroker.dl.filter (fun e => !(e.ID == "5-0")) }, none)) ∧
    (c9wBroker.dl.filter (fun e => e.ID == "5-0") = [] →
      RetryDeadLetterJob c9wBroker "5-0" sid9 =
        (c9wBroker, some ("message not found: " ++ "5-0")) ∧
      ("message not found: " ++ "5-0") ≠ "")) :=
  ⟨by decide, C9_retry_dead_letter c9wBroker "5-0" sid9 (by decide)⟩

/-! ### C10 -/

/-- C10 (amended): on both backends Enqueue mutates the record of the caller in
place overwriting only `ID` (and only when it was nil: a non-nil `ID` is
kept, a nil one becomes the fresh uuid), `Status` (to queued) and
`Enqueued` (to now); `Type`, `Payload`, `Error`, `Started`, `Finished` are
left exactly as supplied.  The returned identifier equals the `ID` of the record
after the call whenever Enqueue returns without error; on an error return
the returned identifier is nil even though the record was already
mutated. -/
theorem C10_enqueue_frame
    (q : MemQueue) (j : Job) (ctxDone sel : Bool) (fresh now : Nat)
    (q' : MemQueue) (j' : Job) (id : Nat) (err : Option String)
    (enc : Job → String) (rq : RedisQueue) (b : Broker) (rctxDone : Bool)
    (sid : String) (rq' : RedisQueue) (b' : Broker) (rj' : Job) (rid : Nat)
    (rerr : Option String)
    (hmem : memEnqueue q j ctxDone fresh now sel = some (q', j', id, err))
    (hred : redisEnqueue enc rq b j rctxDone fresh now sid =
      (rq', b', rj', rid, rerr)) :
    (j'.Ty = j.Ty ∧ j'.Payload = j.Payload ∧ j'.Error = j.Error ∧
     j'.Started = j.Started ∧ j'.Finished = j.Finished ∧
     (j.ID ≠ 0 → j'.ID = j.ID) ∧ (j.ID = 0 → j'.ID = fresh) ∧
     j'.Status = Status.queued ∧ j'.Enqueued = now ∧
     (err = none → id = j'.ID) ∧ (err ≠ none → id = 0)) ∧
    (rj'.Ty = j.Ty ∧ rj'.Payload = j.Payload ∧ rj'.Error = j.Error ∧
     rj'.Started = j.Started ∧ rj'.Finished = j.Finished ∧
     (j.ID ≠ 0 → rj'.ID = j.ID) ∧ (j.ID = 0 → rj'.ID = fresh) ∧
     rj'.Status = Status.queued ∧ rj'.Enqueued = now ∧
     (rerr = none → rid = rj'.ID) ∧ (rerr ≠ none → rid = 0)) := by
  constructor
  · simp only [memEnqueue] at hmem
    split at hmem
    · simp only [Option.some.injEq, Prod.mk.injEq] at hmem
      obtain ⟨-, hj, hid, herr⟩ := hmem
      subst hj
      subst herr
      refine ⟨rfl, rfl, rfl, rfl, rfl, ?_, ?_, rfl, rfl, ?_, ?_⟩
      · intro hne
        simp [if_neg hne]
      · intro h0
        simp [if_pos h0]
      · intro _
        exact hid.symm
      · intro habs
        exact absurd rfl habs
    · split at hmem
      · simp only [Option.some.injEq, Prod.mk.injEq] at hmem
        obtain ⟨-, hj, hid, herr⟩ := hmem
        subst hj
        subst herr
        refine ⟨rfl, rfl, rfl, rfl, rfl, ?_, ?_, rfl, rfl, ?_, ?_⟩
        · intro hne
          simp [if_neg hne]
        · intro h0
          simp [if_pos h0]
        · intro habs
          exact Option.noConfusion habs
        · intro _
          exact hid.symm
      · exact Option.noConfusion hmem
  · simp only [redisEnqueue] at hred
    split at hred
    · simp only [Prod.mk.injEq] at hred
      obtain ⟨-, -, hj, hid, herr⟩ := hred
      subst hj
      subst herr
      refine ⟨rfl, rfl, rfl, rfl, rfl, ?_, ?_, rfl, rfl, ?_, ?_⟩
      · intro hne
        simp [if_neg hne]
      · intro h0
        simp [if_pos h0]
      · intro habs
        exact Option.noConfusion habs
      · intro _
        exact hid.symm
    · simp only [Prod.mk.injEq] at hred
      obtain ⟨-, -, hj, hid, herr⟩ := hred
      subst hj
      subst herr
      refine ⟨rfl, rfl, rfl, rfl, rfl, ?_, ?_, rfl, rfl, ?_, ?_⟩
      · intro hne
        simp [if_neg hne]
      · intro h0
        simp [if_pos h0]
      · intro _
        exact hid.symm
      · intro habs
        exact absurd rfl habs

/-- C10 counterexample: on the cancellation branch the in-process Enqueue
returns the nil identifier while the record of the caller was already assigned
the fresh identifier 1 — the returned identifier does not equal the
`ID` field the record holds after the call. -/
theorem C10_counterexample :
    ((memEnqueue (NewMemoryQueue 10 50) c1wJob true 1 7 false).map
        (fun r => r.2.2.1)) = some 0 ∧
    ((memEnqueue (NewMemoryQueue 10 50) c1wJob true 1 7 false).map
        (fun r => r.2.1.ID)) = some 1 ∧
    (0 : Nat) ≠ 1 := by
  exact ⟨rfl, rfl, by decide⟩

theorem C10_witness :
    memEnqueue (NewMemoryQueue 10 50) c1wJob false 1 7 false =
      some (c1wQ, c1wJobAfter, 1, none) ∧
    redisEnqueue (fun _ => "E") c1wRQ emptyBroker c1wJob false 1 7 "1-0" =
      (c1wRQ1, c1wB1, c1wJobAfter, 1, none) ∧
    ((c1wJobAfter.Ty = c1wJob.Ty ∧ c1wJobAfter.Payload = c1wJob.Payload ∧
      c1wJobAfter.Error = c1wJob.Error ∧
      c1wJobAfter.Started = c1wJob.Started ∧
      c1wJobAfter.Finished = c1wJob.Finished ∧
      (c1wJob.ID ≠ 0 → c1wJobAfter.ID = c1wJob.ID) ∧
      (c1wJob.ID = 0 → c1wJobAfter.ID = 1) ∧
      c1wJobAfter.Status = Status.queued ∧ c1wJobAfter.Enqueued = 7 ∧
      ((none : Option String) = none → 1 = c1wJobAfter.ID) ∧
      ((none : Option String) ≠ none → 1 = 0)) ∧
     (c1wJobAfter.Ty = c1wJob.Ty ∧ c1wJobAfter.Payload = c1wJob.Payload ∧
      c1wJobAfter.Error = c1wJob.Error ∧
      c1wJobAfter.Started = c1wJob.Started ∧
      c1wJobAfter.Finished = c1wJob.Finished ∧
      (c1wJob.ID ≠ 0 → c1wJobAfter.ID = c1wJob.ID) ∧
      (c1wJob.ID = 0 → c1wJobAfter.ID = 1) ∧
      c1wJobAfter.Status = Status.queued ∧ c1wJobAfter.Enqueued = 7 ∧
      ((none : Option String) = none → 1 = c1wJobAfter.ID) ∧
      ((none : Option String) ≠ none → 1 = 0))) :=
  ⟨by decide, by decide,
   C10_enqueue_frame (NewMemoryQueue 10 50) c1wJob false false 1 7
     c1wQ c1wJobAfter 1 none (fun _ => "E") c1wRQ emptyBroker false "1-0"
     c1wRQ1 c1wB1 c1wJobAfter 1 none (by decide) (by decide)⟩

end SmartHeart
